import Mathlib

/-!
Verification development for the `egui_animate` crate: a two-phase
(out-then-in) animation timing engine and its trigger/session controller.

The timing engine (`AnimationState` and friends) is translated from
`src/state.rs`; the per-identifier persistent-store operations are
translated from `src/mem.rs`; the top-level `animate` controller is
translated from `src/state.rs` (`animate` and `AnimationState::animate`).
Wall-clock times and durations (f64/f32 in the source) are modelled as
rationals; the f64-to-f32 narrowing cast is modelled as the identity.
Side effects on the host UI (invoking a segment's effect callback,
invoking the content callback, requesting a repaint) are modelled as an
observable `FrameOutput` record rather than executed.
-/

namespace EguiAnimate

/-- Modelled from the spec: the file `anim.rs` declaring `AnimationSegment`
is not present under `src/`; per spec section 3 a segment is an immutable
record of a duration and an effect callback. Only the duration participates
in the timing logic of `state.rs` (confirmed by the tests there, which
construct `AnimationSegment { duration, anim_fn }`); the effect callback is
an opaque host-side mutation and is represented by the invocation event in
`FrameOutput` instead. -/
structure AnimationSegment where
  duration : ℚ
deriving Repr, DecidableEq

/-- Modelled from the spec: `anim.rs` is not present under `src/`; per spec
section 3 an animation definition is an immutable pair of segment
descriptors (out, in). Matches the construction used by the tests in
`state.rs`. -/
structure Animation where
  out_seg : AnimationSegment
  in_seg : AnimationSegment
deriving Repr, DecidableEq

/-- `RunState` from `state.rs`: the identified animation segment and
*normal*, or `None` when the animation is not running. -/
inductive RunState where
  | OutSeg : ℚ → RunState
  | InSeg : ℚ → RunState
  | None : RunState
deriving Repr, DecidableEq

/-- `RunState::is_running` from `state.rs`. -/
def RunState.is_running : RunState → Bool
  | .OutSeg _ | .InSeg _ => true
  | .None => false

/-- The position of a phase in the progression order
`OutSeg -> InSeg -> None`, used to state phase monotonicity. -/
def RunState.phase : RunState → ℕ
  | .OutSeg _ => 0
  | .InSeg _ => 1
  | .None => 2

/-- `AnimationState` from `state.rs`: a start time, the current time and
the animation definition for the current frame. -/
structure AnimationState where
  start_time : ℚ
  current_time : ℚ
  animation : Animation
deriving Repr, DecidableEq

namespace AnimationState

/-- `AnimationState::out_dur`. -/
def out_dur (s : AnimationState) : ℚ :=
  s.animation.out_seg.duration

/-- `AnimationState::out_start`. -/
def out_start (s : AnimationState) : ℚ :=
  s.start_time

/-- `AnimationState::out_end`. -/
def out_end (s : AnimationState) : ℚ :=
  s.out_start + s.out_dur

/-- `AnimationState::out_elapsed`: elapsed time of the out segment, clamped
to be nonnegative; `none` once the out segment's duration is reached. -/
def out_elapsed (s : AnimationState) : Option ℚ :=
  let e := max (s.current_time - s.out_start) 0
  if e < s.out_dur then some e else none

/-- `AnimationState::out_elapsed_normal`: the out segment's elapsed time
divided by its duration. -/
def out_elapsed_normal (s : AnimationState) : Option ℚ :=
  s.out_elapsed.map (fun e => e / s.out_dur)

/-- `AnimationState::in_dur`. -/
def in_dur (s : AnimationState) : ℚ :=
  s.animation.in_seg.duration

/-- `AnimationState::in_start`: the in segment starts when the out segment
ends. -/
def in_start (s : AnimationState) : ℚ :=
  s.out_end

/-- `AnimationState::in_end`. -/
def in_end (s : AnimationState) : ℚ :=
  s.in_start + s.in_dur

/-- `AnimationState::in_elapsed`: elapsed time of the in segment, clamped
to be nonnegative; `none` once the in segment's duration is reached. -/
def in_elapsed (s : AnimationState) : Option ℚ :=
  let e := max (s.current_time - s.in_start) 0
  if e < s.in_dur then some e else none

/-- `AnimationState::in_elapsed_normal`: the in segment's elapsed time
divided by its duration. -/
def in_elapsed_normal (s : AnimationState) : Option ℚ :=
  s.in_elapsed.map (fun e => e / s.in_dur)

/-- `AnimationState::run_state`: the out segment while it has elapsed
window left, then the in segment, then `None`. -/
def run_state (s : AnimationState) : RunState :=
  match s.out_elapsed_normal with
  | some n => .OutSeg n
  | none =>
    match s.in_elapsed_normal with
    | some n => .InSeg n
    | none => .None

end AnimationState

/-- The timing engine as a function of the start time, the current time
and the two segment durations: `AnimationState::run_state` applied to the
assembled `AnimationState` (the pure function of spec section 4.1). -/
def runStateAt (start_time current_time out_duration in_duration : ℚ) : RunState :=
  (AnimationState.mk start_time current_time ⟨⟨out_duration⟩, ⟨in_duration⟩⟩).run_state

/-- The per-identifier slice of the host's persistent memory touched by
`mem.rs`: the `start_time` entry (key `id.with("start_time")`), the
`start_value` entry (key `id.with("start_value")`), and the layer
transform entry of the identifier's animation layer in the host's
`to_global` registry. `T` is the animated value type, `L` the transform
type (opaque here). -/
structure Store (T L : Type) where
  start_time : Option ℚ
  start_value : Option T
  layer_transform : Option L
deriving Repr, DecidableEq

/-- `mem::get_or_insert_start_time`: return the stored start time, or
insert and return `current_time` when absent. Returns the read value and
the updated store. -/
def get_or_insert_start_time {T L : Type} (s : Store T L) (current_time : ℚ) :
    ℚ × Store T L :=
  match s.start_time with
  | some t => (t, s)
  | none => (current_time, { s with start_time := some current_time })

/-- `mem::get_start_time`. -/
def get_start_time {T L : Type} (s : Store T L) : Option ℚ :=
  s.start_time

/-- `mem::clear_start_time`. -/
def clear_start_time {T L : Type} (s : Store T L) : Store T L :=
  { s with start_time := none }

/-- `mem::get_or_insert_start_value`: return the stored baseline value, or
insert and return `current_value` when absent. Returns the read value and
the updated store. -/
def get_or_insert_start_value {T L : Type} (s : Store T L) (current_value : T) :
    T × Store T L :=
  match s.start_value with
  | some v => (v, s)
  | none => (current_value, { s with start_value := some current_value })

/-- `mem::clear_start_value`. -/
def clear_start_value {T L : Type} (s : Store T L) : Store T L :=
  { s with start_value := none }

/-- `mem::clear_animation_layer`: remove the identifier's layer transform
from the host's `to_global` registry. -/
def clear_animation_layer {T L : Type} (s : Store T L) : Store T L :=
  { s with layer_transform := none }

/-- Which segment's effect callback was invoked on a frame. -/
inductive SegKind where
  | outK : SegKind
  | inK : SegKind
deriving Repr, DecidableEq

/-- The observable host-side effects of one `animate` call: whether a
repaint was requested, which segment effect (if any) was invoked and at
what normal, and the value handed to the content callback
(`add_contents`). -/
structure FrameOutput (T : Type) where
  repaint : Bool
  effect : Option (SegKind × ℚ)
  content : T
deriving Repr, DecidableEq

/-- `AnimationState::animate` from `state.rs`: dispatch on `run_state`.
`OutSeg`: invoke the out effect at its normal with the content callback
receiving the stored (old) value. `InSeg`: clear the leftover layer
transform, then invoke the in effect at its normal with the content
callback receiving the current (new) value. `None`: clear the stored
value, start time and layer transform, then invoke the content callback
directly with the current value. Returns the updated store, the effect
invocation event and the content-callback argument. -/
def AnimationState.animate {T L : Type} (a : AnimationState) (s : Store T L)
    (start_value current_value : T) : Store T L × Option (SegKind × ℚ) × T :=
  match a.run_state with
  | .OutSeg n => (s, some (.outK, n), start_value)
  | .InSeg n => (clear_animation_layer s, some (.inK, n), current_value)
  | .None =>
    (clear_animation_layer (clear_start_time (clear_start_value s)), none, current_value)

/-- The top-level `animate` controller from `state.rs`: read (or
initialize) the baseline value; on the steady-state path invoke the
content callback directly; otherwise read (or initialize) the session
start time, request a repaint, and delegate to
`AnimationState::animate`. -/
def animate {T L : Type} [DecidableEq T] (s : Store T L) (current_time : ℚ)
    (current_value : T) (anim : Animation) : Store T L × FrameOutput T :=
  let r := get_or_insert_start_value s current_value
  let start_value := r.1
  let s1 := r.2
  if start_value = current_value then
    (s1, ⟨false, none, current_value⟩)
  else
    let r2 := get_or_insert_start_time s1 current_time
    let start_time := r2.1
    let s2 := r2.2
    let a : AnimationState := ⟨start_time, current_time, anim⟩
    let r3 := a.animate s2 start_value current_value
    (r3.1, ⟨true, r3.2.1, r3.2.2⟩)

/-- `run_state` (the free function) from `state.rs`: the read-only query
returning the `RunState` for an identifier, `RunState.None` when no
session exists. -/
def run_state_query {T L : Type} (s : Store T L) (current_time : ℚ)
    (anim : Animation) : RunState :=
  match get_start_time s with
  | some start_time => (AnimationState.mk start_time current_time anim).run_state
  | none => .None

/-- Closed form of `run_state` as nested conditionals on the clamped
elapsed times, convenient for case analysis. -/
theorem AnimationState.run_state_eq (s : AnimationState) :
    s.run_state =
      if max (s.current_time - s.start_time) 0 < s.animation.out_seg.duration then
        .OutSeg (max (s.current_time - s.start_time) 0 / s.animation.out_seg.duration)
      else if max (s.current_time - (s.start_time + s.animation.out_seg.duration)) 0 <
          s.animation.in_seg.duration then
        .InSeg (max (s.current_time - (s.start_time + s.animation.out_seg.duration)) 0 /
          s.animation.in_seg.duration)
      else .None := by
  simp only [run_state, out_elapsed_normal, out_elapsed, in_elapsed_normal, in_elapsed,
    out_dur, out_start, in_dur, in_start, out_end]
  split_ifs <;> simp

/-- Closed form of `runStateAt`. -/
theorem runStateAt_eq (st ct outD inD : ℚ) :
    runStateAt st ct outD inD =
      if max (ct - st) 0 < outD then .OutSeg (max (ct - st) 0 / outD)
      else if max (ct - (st + outD)) 0 < inD then
        .InSeg (max (ct - (st + outD)) 0 / inD)
      else .None :=
  AnimationState.run_state_eq _

/-- Reading the baseline through `get_or_insert_start_value` when an
entry exists returns it and leaves the store unchanged. -/
theorem get_or_insert_start_value_of_some {T L : Type} (s : Store T L)
    (cv v : T) (h : s.start_value = some v) :
    get_or_insert_start_value s cv = (v, s) := by
  unfold get_or_insert_start_value
  rw [h]

/-- Reading the start time through `get_or_insert_start_time` when an
entry exists returns it and leaves the store unchanged. -/
theorem get_or_insert_start_time_of_some {T L : Type} (s : Store T L)
    (ct t : ℚ) (h : s.start_time = some t) :
    get_or_insert_start_time s ct = (t, s) := by
  unfold get_or_insert_start_time
  rw [h]

/-- `AnimationState::animate` on a frame whose run state is `OutSeg n`. -/
theorem AnimationState.animate_of_out {T L : Type} (a : AnimationState)
    (s : Store T L) (sv cv : T) (n : ℚ) (h : a.run_state = .OutSeg n) :
    a.animate s sv cv = (s, some (SegKind.outK, n), sv) := by
  unfold AnimationState.animate
  rw [h]

/-- `AnimationState::animate` on a frame whose run state is `InSeg n`. -/
theorem AnimationState.animate_of_in {T L : Type} (a : AnimationState)
    (s : Store T L) (sv cv : T) (n : ℚ) (h : a.run_state = .InSeg n) :
    a.animate s sv cv = (clear_animation_layer s, some (SegKind.inK, n), cv) := by
  unfold AnimationState.animate
  rw [h]

/-- `AnimationState::animate` on a frame whose run state is `None`. -/
theorem AnimationState.animate_of_none {T L : Type} (a : AnimationState)
    (s : Store T L) (sv cv : T) (h : a.run_state = .None) :
    a.animate s sv cv =
      (clear_animation_layer (clear_start_time (clear_start_value s)), none, cv) := by
  unfold AnimationState.animate
  rw [h]

/-- C1 (amended): for every start time `t0` and positive durations, the
timing engine yields `OutSeg 0` at `t0`, `OutSeg (1/2)` at `t0 + outD/2`,
`InSeg 0` at `t0 + outD`, `InSeg (1/2)` at `t0 + outD + inD/2`, and
`None` at every time at or beyond `t0 + outD + inD`; for
`outD = inD = 3/2` and `t0 = 1` the values at times 1, 7/4, 3, 13/4, 4, 5
are `OutSeg 0`, `OutSeg (1/2)`, `InSeg (1/3)`, `InSeg (1/2)`, `None`,
`None` (the `InSeg 0` instant is `t0 + outD = 5/2`, not 3). -/
theorem C1_timing_engine (t0 outD inD : ℚ) (ho : 0 < outD) (hi : 0 < inD) :
    runStateAt t0 t0 outD inD = .OutSeg 0 ∧
    runStateAt t0 (t0 + outD / 2) outD inD = .OutSeg (1 / 2) ∧
    runStateAt t0 (t0 + outD) outD inD = .InSeg 0 ∧
    runStateAt t0 (t0 + outD + inD / 2) outD inD = .InSeg (1 / 2) ∧
    (∀ t, t0 + outD + inD ≤ t → runStateAt t0 t outD inD = .None) ∧
    (runStateAt 1 1 (3 / 2) (3 / 2) = .OutSeg 0 ∧
     runStateAt 1 (7 / 4) (3 / 2) (3 / 2) = .OutSeg (1 / 2) ∧
     runStateAt 1 3 (3 / 2) (3 / 2) = .InSeg (1 / 3) ∧
     runStateAt 1 (13 / 4) (3 / 2) (3 / 2) = .InSeg (1 / 2) ∧
     runStateAt 1 4 (3 / 2) (3 / 2) = .None ∧
     runStateAt 1 5 (3 / 2) (3 / 2) = .None) := by
  have hone : outD ≠ 0 := ne_of_gt ho
  have hine : inD ≠ 0 := ne_of_gt hi
  refine ⟨?_, ?_, ?_, ?_, ?_, by norm_num [runStateAt_eq, max_def]⟩
  · rw [runStateAt_eq, sub_self, max_self, if_pos ho, zero_div]
  · rw [runStateAt_eq]
    have hs : t0 + outD / 2 - t0 = outD / 2 := by ring
    rw [hs, max_eq_left (by linarith), if_pos (by linarith)]
    have hd : outD / 2 / outD = 1 / 2 := by
      field_simp
      ring
    rw [hd]
  · rw [runStateAt_eq]
    have hs1 : t0 + outD - t0 = outD := by ring
    have hs2 : t0 + outD - (t0 + outD) = 0 := by ring
    rw [hs1, hs2, max_eq_left ho.le, if_neg (lt_irrefl outD), max_self, if_pos hi,
      zero_div]
  · rw [runStateAt_eq]
    have hs1 : t0 + outD + inD / 2 - t0 = outD + inD / 2 := by ring
    have hs2 : t0 + outD + inD / 2 - (t0 + outD) = inD / 2 := by ring
    rw [hs1, hs2, max_eq_left (by linarith),
      if_neg (not_lt.mpr (by linarith : outD ≤ outD + inD / 2)),
      max_eq_left (by linarith), if_pos (by linarith)]
    have hd : inD / 2 / inD = 1 / 2 := by
      field_simp
      ring
    rw [hd]
  · intro t ht
    rw [runStateAt_eq]
    rw [if_neg (not_lt.mpr (le_trans (by linarith : outD ≤ t - t0) (le_max_left _ _)))]
    rw [if_neg (not_lt.mpr (le_trans (by linarith : inD ≤ t - (t0 + outD))
      (le_max_left _ _)))]

/-- C1 witness: the amended claim instantiated at `t0 = 1`,
`outD = inD = 3/2`, with the terminal clause applied at time 5. -/
theorem C1_timing_engine_witness :
    runStateAt 1 1 (3 / 2) (3 / 2) = .OutSeg 0 ∧
    runStateAt 1 5 (3 / 2) (3 / 2) = .None :=
  ⟨(C1_timing_engine 1 (3 / 2) (3 / 2) (by norm_num) (by norm_num)).1,
   (C1_timing_engine 1 (3 / 2) (3 / 2) (by norm_num) (by norm_num)).2.2.2.2.1 5
     (by norm_num)⟩

/-- C1 counterexample: with `outDur = inDur = 3/2` and `startTime = 1`
the engine at `currentTime = 3` returns `InSeg (1/3)`, not the `InSeg 0`
the claim lists for that instant (`t0 + outDur` is `5/2`, not 3). -/
theorem C1_scenario_counterexample :
    runStateAt 1 3 (3 / 2) (3 / 2) = .InSeg (1 / 3) ∧
    runStateAt 1 3 (3 / 2) (3 / 2) ≠ .InSeg 0 := by
  norm_num [runStateAt_eq, max_def]

/-- C5: for a fixed start time and nonnegative durations the engine is
phase-monotone in the current time (the phase never regresses in the
order `OutSeg`, `InSeg`, `None`), and once `None` is returned it is
returned at every later time. -/
theorem C5_phase_monotone (st t1 t2 outD inD : ℚ) (_h0 : 0 ≤ outD) (_h1 : 0 ≤ inD)
    (hle : t1 ≤ t2) :
    (runStateAt st t1 outD inD).phase ≤ (runStateAt st t2 outD inD).phase ∧
    (runStateAt st t1 outD inD = .None → runStateAt st t2 outD inD = .None) := by
  have hmo : max (t1 - st) 0 ≤ max (t2 - st) 0 := max_le_max (by linarith) le_rfl
  have hmi : max (t1 - (st + outD)) 0 ≤ max (t2 - (st + outD)) 0 :=
    max_le_max (by linarith) le_rfl
  rw [runStateAt_eq, runStateAt_eq]
  by_cases a2 : max (t2 - st) 0 < outD
  · have a1 : max (t1 - st) 0 < outD := lt_of_le_of_lt hmo a2
    rw [if_pos a1, if_pos a2]
    exact ⟨le_rfl, by simp⟩
  · rw [if_neg a2]
    by_cases b2 : max (t2 - (st + outD)) 0 < inD
    · rw [if_pos b2]
      by_cases a1 : max (t1 - st) 0 < outD
      · rw [if_pos a1]
        exact ⟨by norm_num [RunState.phase], by simp⟩
      · have b1 : max (t1 - (st + outD)) 0 < inD := lt_of_le_of_lt hmi b2
        rw [if_neg a1, if_pos b1]
        exact ⟨le_rfl, by simp⟩
    · rw [if_neg b2]
      refine ⟨?_, fun _ => rfl⟩
      split_ifs <;> norm_num [RunState.phase]

/-- C5 witness: phase monotonicity instantiated at start time 0, times
1 and 2, and unit durations. -/
theorem C5_phase_monotone_witness :
    (runStateAt 0 1 1 1).phase ≤ (runStateAt 0 2 1 1).phase ∧
    (runStateAt 0 1 1 1 = .None → runStateAt 0 2 1 1 = .None) :=
  C5_phase_monotone 0 1 2 1 1 (by norm_num) (by norm_num) (by norm_num)

/-- C6 (amended): for every start time, every positive out duration,
every in duration and every current time strictly before the start time,
the engine returns `OutSeg 0` — elapsed time is clamped to zero and the
reported progress is never negative. (The claim's quantification over
every pair of durations fails when the out duration is zero, where the
out branch is skipped.) -/
theorem C6_clamp (st ct outD inD : ℚ) (ho : 0 < outD) (hct : ct < st) :
    runStateAt st ct outD inD = .OutSeg 0 := by
  rw [runStateAt_eq]
  rw [max_eq_right (by linarith : ct - st ≤ 0), if_pos ho, zero_div]

/-- C6 witness: the clamp at start time 5, current time 2, durations 1
and 7. -/
theorem C6_clamp_witness : runStateAt 5 2 1 7 = .OutSeg 0 :=
  C6_clamp 5 2 1 7 (by norm_num) (by norm_num)

/-- C6 counterexample: with a zero out duration the claim fails — at
start time 0, current time -1 (before the start), durations 0 and 1, the
engine returns `InSeg 0`, not `OutSeg 0`. -/
theorem C6_clamp_counterexample :
    (-1 : ℚ) < 0 ∧ runStateAt 0 (-1) 0 1 = .InSeg 0 ∧
    runStateAt 0 (-1) 0 1 ≠ .OutSeg 0 := by
  norm_num [runStateAt_eq, max_def]
  exact fun h => RunState.noConfusion h

/-- C7: zero-duration segments are immediately complete without division
by zero: with a zero out duration the `OutSeg` branch is never taken;
with `outD = 0`, `inD = 1`, start time 0 the engine returns `InSeg 0` at
current time 0; and with both durations zero it returns `None` at the
very instant the session starts. -/
theorem C7_zero_duration :
    (∀ st ct inD n : ℚ, runStateAt st ct 0 inD ≠ .OutSeg n) ∧
    runStateAt 0 0 0 1 = .InSeg 0 ∧
    (∀ t0 : ℚ, runStateAt t0 t0 0 0 = .None) := by
  refine ⟨?_, by norm_num [runStateAt_eq, max_def], ?_⟩
  · intro st ct inD n
    rw [runStateAt_eq, if_neg (not_lt.mpr (le_max_right _ _))]
    split_ifs <;> simp
  · intro t0
    rw [runStateAt_eq, if_neg (not_lt.mpr (le_max_right _ _)),
      if_neg (not_lt.mpr (le_max_right _ _))]

/-- C7 witness: the no-`OutSeg` clause at concrete inputs, together with
the two concrete zero-duration scenarios. -/
theorem C7_zero_duration_witness :
    runStateAt 2 5 0 3 ≠ .OutSeg (1 / 2) ∧
    runStateAt 0 0 0 1 = .InSeg 0 ∧
    runStateAt 7 7 0 0 = .None :=
  ⟨C7_zero_duration.1 2 5 3 (1 / 2), C7_zero_duration.2.1, C7_zero_duration.2.2 7⟩

/-- C8: whenever the engine returns `OutSeg n` or `InSeg n`, the normal
`n` satisfies `0 ≤ n < 1` — progress never reaches exactly 1 while the
animation is running (and this needs no sign assumption on the
durations, since a branch is only taken when its duration is positive). -/
theorem C8_normal_bounds (st ct outD inD n : ℚ)
    (h : runStateAt st ct outD inD = .OutSeg n ∨
      runStateAt st ct outD inD = .InSeg n) :
    0 ≤ n ∧ n < 1 := by
  rw [runStateAt_eq] at h
  by_cases a : max (ct - st) 0 < outD
  · rw [if_pos a] at h
    rcases h with h | h
    · have hn : max (ct - st) 0 / outD = n := by injection h
      have h0 : (0 : ℚ) ≤ max (ct - st) 0 := le_max_right _ _
      have hd : 0 < outD := lt_of_le_of_lt h0 a
      exact ⟨by rw [← hn]; exact div_nonneg h0 hd.le,
        by rw [← hn]; exact (div_lt_one hd).mpr a⟩
    · simp at h
  · rw [if_neg a] at h
    by_cases b : max (ct - (st + outD)) 0 < inD
    · rw [if_pos b] at h
      rcases h with h | h
      · simp at h
      · have hn : max (ct - (st + outD)) 0 / inD = n := by injection h
        have h0 : (0 : ℚ) ≤ max (ct - (st + outD)) 0 := le_max_right _ _
        have hd : 0 < inD := lt_of_le_of_lt h0 b
        exact ⟨by rw [← hn]; exact div_nonneg h0 hd.le,
          by rw [← hn]; exact (div_lt_one hd).mpr b⟩
    · rw [if_neg b] at h
      rcases h with h | h <;> simp at h

/-- C8 witness: the bounds at the concrete out-phase instance
`runStateAt 0 0 1 1 = OutSeg 0`. -/
theorem C8_normal_bounds_witness :
    runStateAt 0 0 1 1 = .OutSeg 0 ∧ (0 ≤ (0 : ℚ) ∧ (0 : ℚ) < 1) :=
  ⟨by norm_num [runStateAt_eq, max_def],
   C8_normal_bounds 0 0 1 1 0 (Or.inl (by norm_num [runStateAt_eq, max_def]))⟩

/-- C2 (amended): on the first `animate` call with a fresh identifier
(no stored entries), the controller invokes the content callback directly
with the current value, invokes no segment effect and requests no
repaint, and allocates no session: after the call there is still no
`start_time` entry and the layer registry entry is untouched; the one
store write is the baseline `start_value` entry, initialized to the
current value by the get-or-insert read of `mem::get_or_insert_start_value`. -/
theorem C2_steady_state {T L : Type} [DecidableEq T] (s : Store T L)
    (ct : ℚ) (cv : T) (anim : Animation)
    (hv : s.start_value = none) (ht : s.start_time = none) :
    (animate s ct cv anim).2 = FrameOutput.mk false none cv ∧
    (animate s ct cv anim).1.start_time = none ∧
    (animate s ct cv anim).1.start_value = some cv ∧
    (animate s ct cv anim).1.layer_transform = s.layer_transform := by
  simp [animate, get_or_insert_start_value, hv, ht]

/-- C2 witness: the amended steady-state fast path on an empty integer
store. -/
theorem C2_steady_state_witness :
    (animate (Store.mk none none none : Store ℤ Unit) 2 7
        (Animation.mk ⟨1⟩ ⟨1⟩)).2 = FrameOutput.mk false none 7 ∧
    (animate (Store.mk none none none : Store ℤ Unit) 2 7
        (Animation.mk ⟨1⟩ ⟨1⟩)).1.start_time = none ∧
    (animate (Store.mk none none none : Store ℤ Unit) 2 7
        (Animation.mk ⟨1⟩ ⟨1⟩)).1.start_value = some 7 ∧
    (animate (Store.mk none none none : Store ℤ Unit) 2 7
        (Animation.mk ⟨1⟩ ⟨1⟩)).1.layer_transform =
      (Store.mk none none none : Store ℤ Unit).layer_transform :=
  C2_steady_state (Store.mk none none none) 2 7 (Animation.mk ⟨1⟩ ⟨1⟩) rfl rfl

/-- C2 counterexample: on the first call with a fresh identifier (empty
store) the read-or-initialize of the baseline does create a
`start_value` entry: with the integer value 0, the store after the call
holds `some 0` for `start_value`, contradicting the claim that no
`start_value` entry exists after the call. -/
theorem C2_store_counterexample :
    (animate (Store.mk none none none : Store ℤ Unit) 0 0
        (Animation.mk ⟨3 / 2⟩ ⟨3 / 2⟩)).1.start_value = some 0 ∧
    some (0 : ℤ) ≠ (none : Option ℤ) := by
  exact ⟨rfl, by simp⟩

/-- C3: on an `animate` call whose computed run state is terminal
(`None`) for an in-flight session (stored baseline differs from the
current value), the controller removes the `start_value`, `start_time`
and layer-transform entries and calls the content callback directly with
the current value and no segment effect; on any subsequent call with the
cleaned store and unchanged value the steady-state path runs and no
further cleanup or session creation happens, so the cleanup is performed
exactly once for the session. -/
theorem C3_terminal_cleanup {T L : Type} [DecidableEq T] (s : Store T L)
    (ct st : ℚ) (sv cv : T) (outD inD : ℚ)
    (hv : s.start_value = some sv) (hne : sv ≠ cv) (ht : s.start_time = some st)
    (hrs : runStateAt st ct outD inD = .None) :
    animate s ct cv (Animation.mk ⟨outD⟩ ⟨inD⟩) =
      (Store.mk none none none, FrameOutput.mk true none cv) ∧
    (∀ ct2 : ℚ, animate (Store.mk none none none : Store T L) ct2 cv
        (Animation.mk ⟨outD⟩ ⟨inD⟩) =
      (Store.mk none (some cv) none, FrameOutput.mk false none cv)) := by
  have hrs' : (AnimationState.mk st ct (Animation.mk ⟨outD⟩ ⟨inD⟩)).run_state =
      .None := hrs
  constructor
  · simp [animate, get_or_insert_start_value, hv, hne, get_or_insert_start_time, ht,
      AnimationState.animate_of_none, hrs', clear_start_value, clear_start_time,
      clear_animation_layer]
  · intro ct2
    simp [animate, get_or_insert_start_value]

/-- C3 witness: a session for an integer value 7 changed to 9 that is
terminal at time 10 is cleaned up in full; the follow-up call at time 11
takes the steady path and only re-establishes the baseline. -/
theorem C3_terminal_cleanup_witness :
    animate (Store.mk (some 1) (some 7) (some ()) : Store ℤ Unit) 10 9
        (Animation.mk ⟨3 / 2⟩ ⟨3 / 2⟩) =
      (Store.mk none none none, FrameOutput.mk true none 9) ∧
    animate (Store.mk none none none : Store ℤ Unit) 11 9
        (Animation.mk ⟨3 / 2⟩ ⟨3 / 2⟩) =
      (Store.mk none (some 9) none, FrameOutput.mk false none 9) :=
  ⟨(C3_terminal_cleanup (Store.mk (some 1) (some 7) (some ())) 10 1 7 9 (3 / 2) (3 / 2)
      rfl (by decide) rfl (by norm_num [runStateAt_eq, max_def])).1,
   (C3_terminal_cleanup (Store.mk (some 1) (some 7) (some ())) 10 1 7 9 (3 / 2) (3 / 2)
      rfl (by decide) rfl (by norm_num [runStateAt_eq, max_def])).2 11⟩

/-- C4: for an `animate` call with an active session, when the run state
is `OutSeg n` the controller invokes the out segment's effect at `n` with
the content callback receiving the stored (old) value and leaves the
store untouched; when it is `InSeg n` the controller removes the leftover
layer transform and invokes the in segment's effect at `n` with the
content callback receiving the current (new) value. -/
theorem C4_segment_dispatch {T L : Type} [DecidableEq T] (s : Store T L)
    (ct st : ℚ) (sv cv : T) (outD inD : ℚ)
    (hv : s.start_value = some sv) (hne : sv ≠ cv) (ht : s.start_time = some st) :
    (∀ n : ℚ, runStateAt st ct outD inD = .OutSeg n →
      animate s ct cv (Animation.mk ⟨outD⟩ ⟨inD⟩) =
        (s, FrameOutput.mk true (some (SegKind.outK, n)) sv)) ∧
    (∀ n : ℚ, runStateAt st ct outD inD = .InSeg n →
      animate s ct cv (Animation.mk ⟨outD⟩ ⟨inD⟩) =
        ({ s with layer_transform := none },
          FrameOutput.mk true (some (SegKind.inK, n)) cv)) := by
  constructor
  · intro n hrs
    have hrs' : (AnimationState.mk st ct (Animation.mk ⟨outD⟩ ⟨inD⟩)).run_state =
        .OutSeg n := hrs
    simp [animate, get_or_insert_start_value, hv, hne, get_or_insert_start_time, ht,
      AnimationState.animate_of_out, hrs']
  · intro n hrs
    have hrs' : (AnimationState.mk st ct (Animation.mk ⟨outD⟩ ⟨inD⟩)).run_state =
        .InSeg n := hrs
    simp [animate, get_or_insert_start_value, hv, hne, get_or_insert_start_time, ht,
      AnimationState.animate_of_in, hrs', clear_animation_layer]

/-- C4 witness: a session started at time 1 with durations 3/2, baseline
7 and current value 9: at time 7/4 the out effect runs at normal 1/2
showing the old value; at time 3 the in effect runs at normal 1/3 showing
the new value and the layer transform entry is removed. -/
theorem C4_segment_dispatch_witness :
    animate (Store.mk (some 1) (some 7) (some ()) : Store ℤ Unit) (7 / 4) 9
        (Animation.mk ⟨3 / 2⟩ ⟨3 / 2⟩) =
      (Store.mk (some 1) (some 7) (some ()),
        FrameOutput.mk true (some (SegKind.outK, 1 / 2)) 7) ∧
    animate (Store.mk (some 1) (some 7) (some ()) : Store ℤ Unit) 3 9
        (Animation.mk ⟨3 / 2⟩ ⟨3 / 2⟩) =
      (Store.mk (some 1) (some 7) none,
        FrameOutput.mk true (some (SegKind.inK, 1 / 3)) 9) :=
  ⟨(C4_segment_dispatch (Store.mk (some 1) (some 7) (some ())) (7 / 4) 1 7 9
      (3 / 2) (3 / 2) rfl (by decide) rfl).1 (1 / 2)
      (by norm_num [runStateAt_eq, max_def]),
   (C4_segment_dispatch (Store.mk (some 1) (some 7) (some ())) 3 1 7 9
      (3 / 2) (3 / 2) rfl (by decide) rfl).2 (1 / 3)
      (by norm_num [runStateAt_eq, max_def])⟩

/-- C9: once a `start_time` entry exists for the identifier, the
get-or-insert read returns it without rewriting the store, and after any
`animate` call the entry either still holds the same value or has been
removed by the terminal cleanup (which only happens when the run state
computed from that very start time is `None`); it is never rewritten to
a different time. -/
theorem C9_start_time_stable {T L : Type} [DecidableEq T] (s : Store T L)
    (ct st : ℚ) (cv : T) (outD inD : ℚ) (ht : s.start_time = some st) :
    get_or_insert_start_time s ct = (st, s) ∧
    ((animate s ct cv (Animation.mk ⟨outD⟩ ⟨inD⟩)).1.start_time = some st ∨
      (runStateAt st ct outD inD = .None ∧
        (animate s ct cv (Animation.mk ⟨outD⟩ ⟨inD⟩)).1.start_time = none)) := by
  refine ⟨by simp [get_or_insert_start_time, ht], ?_⟩
  rcases hsv : s.start_value with _ | v
  · left
    simp [animate, get_or_insert_start_value, hsv, ht]
  · by_cases hvc : v = cv
    · left
      simp [animate, get_or_insert_start_value, hsv, hvc, ht]
    · rcases hrs : runStateAt st ct outD inD with n | n | _
      · left
        have hrs' : (AnimationState.mk st ct (Animation.mk ⟨outD⟩ ⟨inD⟩)).run_state =
            .OutSeg n := hrs
        simp [animate, get_or_insert_start_value, hsv, hvc,
          get_or_insert_start_time, ht, AnimationState.animate_of_out, hrs']
      · left
        have hrs' : (AnimationState.mk st ct (Animation.mk ⟨outD⟩ ⟨inD⟩)).run_state =
            .InSeg n := hrs
        simp [animate, get_or_insert_start_value, hsv, hvc,
          get_or_insert_start_time, ht, AnimationState.animate_of_in, hrs',
          clear_animation_layer]
      · right
        have hrs' : (AnimationState.mk st ct (Animation.mk ⟨outD⟩ ⟨inD⟩)).run_state =
            .None := hrs
        refine ⟨rfl, ?_⟩
        simp [animate, get_or_insert_start_value, hsv, hvc,
          get_or_insert_start_time, ht, AnimationState.animate_of_none, hrs',
          clear_start_value, clear_start_time, clear_animation_layer]

/-- C9 witness: a session started at time 1 keeps its `start_time` entry
across a mid-flight call at time 2 with yet another new value. -/
theorem C9_start_time_stable_witness :
    get_or_insert_start_time (Store.mk (some 1) (some 7) none : Store ℤ Unit) 2 =
      (1, Store.mk (some 1) (some 7) none) ∧
    ((animate (Store.mk (some 1) (some 7) none : Store ℤ Unit) 2 11
        (Animation.mk ⟨3 / 2⟩ ⟨3 / 2⟩)).1.start_time = some 1 ∨
      (runStateAt 1 2 (3 / 2) (3 / 2) = .None ∧
        (animate (Store.mk (some 1) (some 7) none : Store ℤ Unit) 2 11
          (Animation.mk ⟨3 / 2⟩ ⟨3 / 2⟩)).1.start_time = none)) :=
  C9_start_time_stable (Store.mk (some 1) (some 7) none) 2 1 11 (3 / 2) (3 / 2) rfl

/-- C10: on every `animate` call whose stored baseline differs from the
current value, a repaint is requested; the request is made before the run
state is dispatched on, so it is also issued on the frame whose run state
is terminal — the cleanup frame schedules one more host frame. -/
theorem C10_repaint_on_change {T L : Type} [DecidableEq T] (s : Store T L)
    (ct : ℚ) (sv cv : T) (anim : Animation)
    (hv : s.start_value = some sv) (hne : sv ≠ cv) :
    (animate s ct cv anim).2.repaint = true := by
  simp [animate, get_or_insert_start_value, hv, hne]

/-- C10 witness: the repaint request on a terminal cleanup frame — the
session started at time 0 with unit durations is already terminal at
time 100, and the repaint flag is still set. -/
theorem C10_repaint_on_change_witness :
    runStateAt 0 100 1 1 = .None ∧
    (animate (Store.mk (some 0) (some 1) none : Store ℤ Unit) 100 2
        (Animation.mk ⟨1⟩ ⟨1⟩)).2.repaint = true :=
  ⟨by norm_num [runStateAt_eq, max_def],
   C10_repaint_on_change (Store.mk (some 0) (some 1) none) 100 1 2
     (Animation.mk ⟨1⟩ ⟨1⟩) rfl (by decide)⟩

end EguiAnimate
